import Mathlib

/-!
Verification of the fiber-opportunity scoring model
(`scripts/build_scoring_model.py`).

Numeric model: pandas float columns are embedded as `List (Option ℚ)` —
`none` models a missing value (NaN), `some q` a finite float.  All the
arithmetic the scoring pipeline performs on non-missing data is exact
decimal/rational arithmetic well inside double precision, so ℚ is a
faithful carrier for it.  For the one claim about infinities produced by
division (C9) a dedicated four-constructor float domain `FP` with IEEE
nan/±inf semantics is used.
-/

namespace FiberOpp

/-! ### Percentile normalizer (`percentile_score`)

`series.rank(pct=True, na_option="bottom", method="average")`:
* ranks are 1..N over *all* rows; missing (NaN) entries are assigned the
  highest ranks (pandas `na_option="bottom"` sorts NaN after every
  present value), tied entries share the average of their positions;
* `pct=True` divides by the total row count N.
The rank of an entry depends only on the multiset of column values and
the entry's own value, so it is embedded as a per-entry function. -/

/-- Number of present entries strictly below `v`. -/
def countLt (xs : List (Option ℚ)) (v : ℚ) : ℕ :=
  xs.countP (fun x => match x with | some w => decide (w < v) | none => false)

/-- Number of present entries equal to `v`. -/
def countEq (xs : List (Option ℚ)) (v : ℚ) : ℕ :=
  xs.countP (fun x => match x with | some w => decide (w = v) | none => false)

/-- Number of present (non-missing) entries. -/
def countSome (xs : List (Option ℚ)) : ℕ := xs.countP (fun x => x.isSome)

/-- Number of missing entries. -/
def countNone (xs : List (Option ℚ)) : ℕ := xs.countP (fun x => x.isNone)

/-- pandas average rank of one entry of the column `xs`
(`rank(method="average", na_option="bottom")`): a present value `v`
averages the positions of its tie group among the present values;
missing entries are placed after all present values and share the
average of the trailing positions. -/
def avgRank (xs : List (Option ℚ)) : Option ℚ → ℚ
  | some v => (countLt xs v : ℚ) + ((countEq xs v : ℚ) + 1) / 2
  | none => (countSome xs : ℚ) + ((countNone xs : ℚ) + 1) / 2

/-- pandas `rank(pct=True, na_option="bottom")` of one entry: the average
rank divided by the total number of rows. -/
def pctRank (xs : List (Option ℚ)) (x : Option ℚ) : ℚ :=
  avgRank xs x / (xs.length : ℚ)

/-- Score of one entry under `percentile_score`: the percentile rank,
inverted when `ascending=False`, scaled to 0–100. -/
def percentileAt (xs : List (Option ℚ)) (ascending : Bool) (x : Option ℚ) : ℚ :=
  (if ascending then pctRank xs x else 1 - pctRank xs x) * 100

/-- `percentile_score(series, ascending)` from build_scoring_model.py:
`ranks = series.rank(pct=True, na_option="bottom")`; if not ascending,
`ranks = 1 - ranks`; return `ranks * 100`. -/
def percentile_score (xs : List (Option ℚ)) (ascending : Bool) : List ℚ :=
  xs.map (percentileAt xs ascending)

/-! ### Tract record

One merged row after `load_and_merge` (ACS ⨝ FCC ⨝ RUCC).  Raw count
columns come out of the CSVs as plain numbers; `median_hh_income` is
nullable (sentinel-cleaned), `rucc_code` is nullable (left join). -/

structure Row where
  GEOID : String
  StateAbbr : String
  CountyName : String
  county_geoid : String
  rucc_code : Option ℤ
  total_population : ℚ
  hh_total : ℚ
  hh_no_internet : ℚ
  hh_cellular_only : ℚ
  hh_broadband_any : ℚ
  hh_cable_fiber_dsl : ℚ
  median_hh_income : Option ℚ
  edu_bachelors : ℚ
  edu_masters : ℚ
  edu_professional : ℚ
  edu_doctorate : ℚ
  edu_total_25plus : ℚ
  emp_unemployed : ℚ
  emp_civilian_labor : ℚ
  race_total : ℚ
  race_nh_white : ℚ
  comp_no_computer : ℚ
  comp_total_hh : ℚ
  TotalBSLs : ℚ
  UnservedBSLs : ℚ
  UnderservedBSLs : ℚ
  ServedBSLs : ℚ
  UnservedBSLsFiber : ℚ
  ServedBSLsFiber : ℚ
  ServedBSLsCopper : ℚ
  UniqueProviders : ℚ
  UniqueProvidersFiber : ℚ
deriving DecidableEq

/-! ### Derived metrics (`compute_derived_metrics`), ℚ level

The metrics consumed by the score engines.  Their denominators
(`TotalBSLs`, `hh_total`) are strictly positive for every retained row
(the loader filter), so plain rational division is exact here; the full
float semantics of `compute_derived_metrics`, including the guarded
zero-denominator metrics that do not feed the scores, is modelled in the
`FP` section below. -/

/-- `pct_unserved = UnservedBSLs / TotalBSLs * 100`. -/
def pct_unserved (r : Row) : ℚ := r.UnservedBSLs / r.TotalBSLs * 100

/-- `pct_underserved = UnderservedBSLs / TotalBSLs * 100`. -/
def pct_underserved (r : Row) : ℚ := r.UnderservedBSLs / r.TotalBSLs * 100

/-- `pct_unserved_underserved = (UnservedBSLs + UnderservedBSLs) / TotalBSLs * 100`. -/
def pct_unserved_underserved (r : Row) : ℚ :=
  (r.UnservedBSLs + r.UnderservedBSLs) / r.TotalBSLs * 100

/-- `pct_no_fiber = (TotalBSLs - ServedBSLsFiber) / TotalBSLs * 100`. -/
def pct_no_fiber (r : Row) : ℚ := (r.TotalBSLs - r.ServedBSLsFiber) / r.TotalBSLs * 100

/-- `pct_copper_served = ServedBSLsCopper / TotalBSLs * 100`. -/
def pct_copper_served (r : Row) : ℚ := r.ServedBSLsCopper / r.TotalBSLs * 100

/-- `pct_cellular_only = hh_cellular_only / hh_total * 100`. -/
def pct_cellular_only (r : Row) : ℚ := r.hh_cellular_only / r.hh_total * 100

/-- `pct_broadband = hh_broadband_any / hh_total * 100`. -/
def pct_broadband (r : Row) : ℚ := r.hh_broadband_any / r.hh_total * 100

/-- `pct_served = ServedBSLs / TotalBSLs * 100`. -/
def pct_served (r : Row) : ℚ := r.ServedBSLs / r.TotalBSLs * 100

/-- `adoption_gap = pct_served - pct_broadband`. -/
def adoption_gap (r : Row) : ℚ := pct_served r - pct_broadband r

/-! ### Sub-score engines

Each engine turns whole columns of the retained table into percentile
scores; the embedding gives the score of row `r` relative to the table
`df`. -/

/-- Income column of the table. -/
def incomeCol (df : List Row) : List (Option ℚ) := df.map Row.median_hh_income

/-- The present (non-missing) incomes. -/
def presentIncomes (df : List Row) : List ℚ := (incomeCol df).filterMap id

/-- Insert into a sorted list (ascending). -/
def insertSorted (x : ℚ) : List ℚ → List ℚ
  | [] => [x]
  | y :: ys => if x ≤ y then x :: y :: ys else y :: insertSorted x ys

/-- Insertion sort, ascending. -/
def sortQ (xs : List ℚ) : List ℚ := xs.foldr insertSorted []

/-- pandas `Series.median()` over the present values: middle element of
the sorted list, or the mean of the two middle elements; `none` (NaN)
when no value is present. -/
def medianQ (xs : List ℚ) : Option ℚ :=
  if xs.length = 0 then none
  else
    some
      (if xs.length % 2 = 1 then (sortQ xs).getD (xs.length / 2) 0
       else ((sortQ xs).getD (xs.length / 2 - 1) 0 + (sortQ xs).getD (xs.length / 2) 0) / 2)

/-- `median_hh_income.fillna(median_hh_income.median())` applied to one
entry: a missing income becomes the population median of the present
incomes (itself missing only if no income is present at all). -/
def income_fill (df : List Row) (x : Option ℚ) : Option ℚ :=
  match x with
  | some v => some v
  | none => medianQ (presentIncomes df)

/-- The filled income column. -/
def income_filled_col (df : List Row) : List (Option ℚ) :=
  (incomeCol df).map (income_fill df)

/-- `np.where(income_filled < 30000, 0.5, 1.0)` for one entry (NaN
compares false, giving factor 1). -/
def lowIncomePenalty (x : Option ℚ) : ℚ :=
  match x with
  | some v => if v < 30000 then 0.5 else 1
  | none => 1

/-- The income component `s1` of `score_demand_signal`: percentile of
the median-filled income, multiplied by the low-income penalty. -/
def demand_income_score (df : List Row) (r : Row) : ℚ :=
  percentileAt (income_filled_col df) true (income_fill df r.median_hh_income) *
    lowIncomePenalty (income_fill df r.median_hh_income)

/-- `score_supply_gap`. -/
def score_supply_gap (df : List Row) (r : Row) : ℚ :=
  let s1 := percentileAt (df.map (fun t => some t.UniqueProvidersFiber)) false
    (some r.UniqueProvidersFiber)
  let s2 := percentileAt (df.map (fun t => some (pct_no_fiber t))) true (some (pct_no_fiber r))
  let s3 := percentileAt (df.map (fun t => some (pct_unserved_underserved t))) true
    (some (pct_unserved_underserved r))
  let s4 := percentileAt (df.map (fun t => some (pct_copper_served t))) true
    (some (pct_copper_served r))
  let s5 := percentileAt (df.map (fun t => some t.UniqueProviders)) false (some r.UniqueProviders)
  s1 * 0.30 + s2 * 0.25 + s3 * 0.20 + s4 * 0.15 + s5 * 0.10

/-- `score_demand_signal`. -/
def score_demand_signal (df : List Row) (r : Row) : ℚ :=
  let s1 := demand_income_score df r
  let s2 := percentileAt (df.map (fun t => some t.TotalBSLs)) true (some r.TotalBSLs)
  let s3 := percentileAt (df.map (fun t => some (pct_cellular_only t))) true
    (some (pct_cellular_only r))
  let s4 := percentileAt (df.map (fun t => some (max (adoption_gap t) 0))) true
    (some (max (adoption_gap r) 0))
  let s5 := percentileAt (df.map (fun t => some t.total_population)) true
    (some r.total_population)
  s1 * 0.30 + s2 * 0.25 + s3 * 0.20 + s4 * 0.15 + s5 * 0.10

/-- `score_funding_tailwind`. -/
def score_funding_tailwind (df : List Row) (r : Row) : ℚ :=
  let s1 := percentileAt (df.map (fun t => some t.UnservedBSLs)) true (some r.UnservedBSLs)
  let s2 := percentileAt (df.map (fun t => some (pct_unserved t))) true (some (pct_unserved r))
  let s3 := percentileAt (df.map (fun t => some t.UnderservedBSLs)) true (some r.UnderservedBSLs)
  let s4 := percentileAt (df.map (fun t => some (pct_unserved_underserved t))) true
    (some (pct_unserved_underserved r))
  s1 * 0.30 + s2 * 0.30 + s3 * 0.20 + s4 * 0.20

/-- The RUCC sweet-spot lookup table `rucc_map` of
`score_build_feasibility` (a Python dict keyed by the codes 1–9). -/
def rucc_map (c : ℤ) : Option ℚ :=
  if c = 1 then some 20
  else if c = 2 then some 35
  else if c = 3 then some 55
  else if c = 4 then some 85
  else if c = 5 then some 75
  else if c = 6 then some 90
  else if c = 7 then some 70
  else if c = 8 then some 60
  else if c = 9 then some 40
  else none

/-- `score_build_feasibility`. -/
def score_build_feasibility (df : List Row) (r : Row) : ℚ :=
  let s1 := (r.rucc_code.bind rucc_map).getD 50
  let bsl_pctile := pctRank (df.map (fun t => some t.TotalBSLs)) (some r.TotalBSLs)
  let s2 : ℚ :=
    if bsl_pctile < 0.1 then 20
    else if bsl_pctile < 0.3 then 50
    else if bsl_pctile < 0.7 then 85
    else if bsl_pctile < 0.9 then 60
    else 30
  let s3 := percentileAt (df.map (fun t => some t.UniqueProviders)) false (some r.UniqueProviders)
  s1 * 0.40 + s2 * 0.35 + s3 * 0.25

/-! ### Composite aggregator (`build_composite_score`) -/

/-- `opportunity_score`: the weighted composite of the four sub-scores. -/
def opportunity_score (df : List Row) (r : Row) : ℚ :=
  score_supply_gap df r * 0.40 + score_demand_signal df r * 0.30 +
    score_funding_tailwind df r * 0.15 + score_build_feasibility df r * 0.15

/-- The composite-score column of the table. -/
def scoreCol (df : List Row) : List ℚ := df.map (opportunity_score df)

/-- Number of entries strictly above `v` (all-present column). -/
def countGt (xs : List ℚ) (v : ℚ) : ℕ := xs.countP (fun w => decide (v < w))

/-- Number of entries equal to `v` (all-present column). -/
def countEqQ (xs : List ℚ) (v : ℚ) : ℕ := xs.countP (fun w => decide (w = v))

/-- pandas `rank(ascending=False)` (average method) of one entry of an
all-present column. -/
def rankDesc (xs : List ℚ) (v : ℚ) : ℚ :=
  (countGt xs v : ℚ) + ((countEqQ xs v : ℚ) + 1) / 2

/-- numpy `astype(int)`: truncation toward zero. -/
def astype_int (q : ℚ) : ℤ := if 0 ≤ q then ⌊q⌋ else ⌈q⌉

/-- `opportunity_rank = opportunity_score.rank(ascending=False).astype(int)`. -/
def opportunity_rank (df : List Row) (r : Row) : ℤ :=
  astype_int (rankDesc (scoreCol df) (opportunity_score df r))

/-- The ordinal tier labels. -/
inductive Tier where
  | Low : Tier
  | BelowAverage : Tier
  | Moderate : Tier
  | High : Tier
  | VeryHigh : Tier
deriving DecidableEq

/-- `pd.cut(score, bins=[0, 30, 50, 65, 80, 100], labels=[...])`:
right-inclusive, left-exclusive buckets; values outside every bucket
(score ≤ 0 or score > 100) get a missing label. -/
def opportunity_tier (q : ℚ) : Option Tier :=
  if 0 < q ∧ q ≤ 30 then some Tier.Low
  else if 30 < q ∧ q ≤ 50 then some Tier.BelowAverage
  else if 50 < q ∧ q ≤ 65 then some Tier.Moderate
  else if 65 < q ∧ q ≤ 80 then some Tier.High
  else if 80 < q ∧ q ≤ 100 then some Tier.VeryHigh
  else none

/-- One row of the persisted tract-score table: the merged row plus the
columns `build_composite_score` assigns. -/
structure ScoredRow where
  row : Row
  score_supply_gap : ℚ
  score_demand_signal : ℚ
  score_funding_tailwind : ℚ
  score_build_feasibility : ℚ
  opportunity_score : ℚ
  opportunity_rank : ℤ
  opportunity_tier : Option Tier
deriving DecidableEq

/-- `build_composite_score(df)`: assign the four sub-scores, the
weighted composite, the descending integer rank and the tier label. -/
def build_composite_score (df : List Row) : List ScoredRow :=
  df.map (fun r =>
    { row := r
      score_supply_gap := score_supply_gap df r
      score_demand_signal := score_demand_signal df r
      score_funding_tailwind := score_funding_tailwind df r
      score_build_feasibility := score_build_feasibility df r
      opportunity_score := opportunity_score df r
      opportunity_rank := opportunity_rank df r
      opportunity_tier := opportunity_tier (opportunity_score df r) })

/-! ### Dataset loader (`load_and_merge`) and `main`

The three raw tables, as read from the CSVs with `GEOID`/`FIPS` already
string-typed (the `dtype={"GEOID": str}` / `zfill(5)` normalizations). -/

/-- One row of `acs_2024_tracts_6states.csv`.  `median_hh_income` is the
raw value: possibly absent, possibly the Census sentinel -666666666. -/
structure AcsRow where
  GEOID : String
  total_population : ℚ
  hh_total : ℚ
  hh_no_internet : ℚ
  hh_cellular_only : ℚ
  hh_broadband_any : ℚ
  hh_cable_fiber_dsl : ℚ
  median_hh_income : Option ℚ
  edu_bachelors : ℚ
  edu_masters : ℚ
  edu_professional : ℚ
  edu_doctorate : ℚ
  edu_total_25plus : ℚ
  emp_unemployed : ℚ
  emp_civilian_labor : ℚ
  race_total : ℚ
  race_nh_white : ℚ
  comp_no_computer : ℚ
  comp_total_hh : ℚ
deriving DecidableEq

/-- One row of `fcc_bdc_tracts_6states.csv`. -/
structure FccRow where
  GEOID : String
  StateAbbr : String
  CountyName : String
  TotalBSLs : ℚ
  UnservedBSLs : ℚ
  UnderservedBSLs : ℚ
  ServedBSLs : ℚ
  UnservedBSLsFiber : ℚ
  ServedBSLsFiber : ℚ
  ServedBSLsCopper : ℚ
  UniqueProviders : ℚ
  UniqueProvidersFiber : ℚ
deriving DecidableEq

/-- One row of `rucc_2023_6states.csv` after column selection/renaming
(`county_geoid = FIPS.zfill(5)`). -/
structure RuccRow where
  county_geoid : String
  rucc_code : ℤ
deriving DecidableEq

/-- One merged row: ACS fields + FCC fields, `county_geoid` derived as
the first five characters of the tract GEOID, rurality code from the
left join (or `none`). -/
def mkRow (a : AcsRow) (f : FccRow) (rc : Option ℤ) : Row :=
  { GEOID := a.GEOID
    StateAbbr := f.StateAbbr
    CountyName := f.CountyName
    county_geoid := a.GEOID.take 5
    rucc_code := rc
    total_population := a.total_population
    hh_total := a.hh_total
    hh_no_internet := a.hh_no_internet
    hh_cellular_only := a.hh_cellular_only
    hh_broadband_any := a.hh_broadband_any
    hh_cable_fiber_dsl := a.hh_cable_fiber_dsl
    median_hh_income := a.median_hh_income
    edu_bachelors := a.edu_bachelors
    edu_masters := a.edu_masters
    edu_professional := a.edu_professional
    edu_doctorate := a.edu_doctorate
    edu_total_25plus := a.edu_total_25plus
    emp_unemployed := a.emp_unemployed
    emp_civilian_labor := a.emp_civilian_labor
    race_total := a.race_total
    race_nh_white := a.race_nh_white
    comp_no_computer := a.comp_no_computer
    comp_total_hh := a.comp_total_hh
    TotalBSLs := f.TotalBSLs
    UnservedBSLs := f.UnservedBSLs
    UnderservedBSLs := f.UnderservedBSLs
    ServedBSLs := f.ServedBSLs
    UnservedBSLsFiber := f.UnservedBSLsFiber
    ServedBSLsFiber := f.ServedBSLsFiber
    ServedBSLsCopper := f.ServedBSLsCopper
    UniqueProviders := f.UniqueProviders
    UniqueProvidersFiber := f.UniqueProvidersFiber }

/-- The Census "not available" sentinel cleanup:
`median_hh_income.replace(-666666666, np.nan)`. -/
def cleanIncome (r : Row) : Row :=
  { r with median_hh_income :=
      r.median_hh_income.bind (fun v => if v = -666666666 then none else some v) }

/-- `load_and_merge()`: inner-join ACS and FCC on GEOID (every matching
pair produces a row), left-join RUCC on the county prefix of the GEOID,
filter to rows with positive population, households and BSLs, then clean
the income sentinel.  Note: the function never fails — there is no
zero-row check anywhere in it. -/
def load_and_merge (acs : List AcsRow) (fcc : List FccRow) (rucc : List RuccRow) : List Row :=
  let merged := acs.flatMap (fun a =>
    (fcc.filter (fun f => f.GEOID == a.GEOID)).map (fun f =>
      mkRow a f ((rucc.find? (fun rr => rr.county_geoid == a.GEOID.take 5)).map
        RuccRow.rucc_code)))
  let filtered := merged.filter (fun r =>
    decide (0 < r.total_population) && decide (0 < r.hh_total) && decide (0 < r.TotalBSLs))
  filtered.map cleanIncome

/-! ### County rollup (`county_scores` in `main`)

`df.groupby(["StateAbbr", "CountyName", "county_geoid", "rucc_code"])`.
pandas `groupby` defaults to `dropna=True`: a row whose `rucc_code` is
missing belongs to no group. -/

/-- The grouping key of a scored row, when all its components are
present. -/
def rollupKey (sr : ScoredRow) : Option (String × String × String × ℤ) :=
  sr.row.rucc_code.map (fun c => (sr.row.StateAbbr, sr.row.CountyName, sr.row.county_geoid, c))

/-- The distinct present grouping keys, in first-appearance order. -/
def rollupKeys (sdf : List ScoredRow) : List (String × String × String × ℤ) :=
  (sdf.filterMap rollupKey).dedup

/-- The groups of the county rollup: each present key with the rows it
aggregates. -/
def county_groups (sdf : List ScoredRow) :
    List ((String × String × String × ℤ) × List ScoredRow) :=
  (rollupKeys sdf).map (fun k => (k, sdf.filter (fun sr => decide (rollupKey sr = some k))))

/-- Sum of a rational list. -/
def sumQ (xs : List ℚ) : ℚ := xs.foldr (· + ·) 0

/-- Maximum of a rational list (0 for the empty list; every group is
nonempty). -/
def maxQ (xs : List ℚ) : ℚ := xs.foldr max 0

/-- One row of the persisted county-rollup table (the aggregates that
depend on the grouping; the remaining mean columns of the source are
analogous per-group means and do not affect which tracts are
aggregated). -/
structure CountyAgg where
  StateAbbr : String
  CountyName : String
  county_geoid : String
  rucc_code : ℤ
  avg_score : ℚ
  max_score : ℚ
  tract_count : ℕ
  total_bsls : ℚ
  total_unserved : ℚ
deriving DecidableEq

/-- Aggregate one group. -/
def aggGroup (kg : (String × String × String × ℤ) × List ScoredRow) : CountyAgg :=
  { StateAbbr := kg.1.1
    CountyName := kg.1.2.1
    county_geoid := kg.1.2.2.1
    rucc_code := kg.1.2.2.2
    avg_score := sumQ (kg.2.map ScoredRow.opportunity_score) / (kg.2.length : ℚ)
    max_score := maxQ (kg.2.map ScoredRow.opportunity_score)
    tract_count := kg.2.length
    total_bsls := sumQ (kg.2.map (fun sr => sr.row.TotalBSLs))
    total_unserved := sumQ (kg.2.map (fun sr => sr.row.UnservedBSLs)) }

/-- Insert into a list sorted descending by `avg_score`
(`sort_values("avg_score", ascending=False)`). -/
def insertDescAgg (x : CountyAgg) : List CountyAgg → List CountyAgg
  | [] => [x]
  | y :: ys => if y.avg_score < x.avg_score then x :: y :: ys else y :: insertDescAgg x ys

/-- The county-rollup table of `main`: one aggregate row per present
group key, sorted descending by mean score. -/
def county_scores (sdf : List ScoredRow) : List CountyAgg :=
  ((county_groups sdf).map aggGroup).foldr insertDescAgg []

/-- The two tables `main()` persists (`tract_scores.csv`,
`county_scores.csv`).  The function is total: the script runs the whole
pipeline and writes both files unconditionally, whatever the row counts
of the inputs or of the intermediate joins. -/
def main_outputs (acs : List AcsRow) (fcc : List FccRow) (rucc : List RuccRow) :
    List ScoredRow × List CountyAgg :=
  let df := build_composite_score (load_and_merge acs fcc rucc)
  (df, county_scores df)

/-! ### Float semantics of `compute_derived_metrics`

For the safety claim about divisions, the pandas float arithmetic is
modelled on a domain with NaN and the two infinities (IEEE-754 rules for
the operations the stage uses).  The raw count columns entering the
stage are finite numbers out of the CSVs. -/

/-- A pandas float cell: NaN, ±infinity, or a finite value. -/
inductive FP where
  | nan : FP
  | inf : FP
  | ninf : FP
  | num : ℚ → FP
deriving DecidableEq

/-- IEEE addition on the needed cases. -/
def FP.add : FP → FP → FP
  | FP.num a, FP.num b => FP.num (a + b)
  | FP.nan, _ => FP.nan
  | _, FP.nan => FP.nan
  | FP.inf, FP.ninf => FP.nan
  | FP.ninf, FP.inf => FP.nan
  | FP.inf, _ => FP.inf
  | _, FP.inf => FP.inf
  | FP.ninf, _ => FP.ninf
  | _, FP.ninf => FP.ninf

/-- IEEE subtraction. -/
def FP.sub : FP → FP → FP
  | FP.num a, FP.num b => FP.num (a - b)
  | FP.nan, _ => FP.nan
  | _, FP.nan => FP.nan
  | FP.inf, FP.inf => FP.nan
  | FP.ninf, FP.ninf => FP.nan
  | FP.inf, _ => FP.inf
  | _, FP.inf => FP.ninf
  | FP.ninf, _ => FP.ninf
  | _, FP.ninf => FP.inf

/-- IEEE multiplication. -/
def FP.mul : FP → FP → FP
  | FP.num a, FP.num b => FP.num (a * b)
  | FP.nan, _ => FP.nan
  | _, FP.nan => FP.nan
  | FP.inf, FP.inf => FP.inf
  | FP.inf, FP.ninf => FP.ninf
  | FP.ninf, FP.inf => FP.ninf
  | FP.ninf, FP.ninf => FP.inf
  | FP.inf, FP.num b => if 0 < b then FP.inf else if b < 0 then FP.ninf else FP.nan
  | FP.num a, FP.inf => if 0 < a then FP.inf else if a < 0 then FP.ninf else FP.nan
  | FP.ninf, FP.num b => if 0 < b then FP.ninf else if b < 0 then FP.inf else FP.nan
  | FP.num a, FP.ninf => if 0 < a then FP.ninf else if a < 0 then FP.inf else FP.nan

/-- IEEE division: a nonzero finite value divided by zero is a signed
infinity, `0/0` is NaN. -/
def FP.div : FP → FP → FP
  | FP.nan, _ => FP.nan
  | _, FP.nan => FP.nan
  | FP.inf, FP.inf => FP.nan
  | FP.inf, FP.ninf => FP.nan
  | FP.ninf, FP.inf => FP.nan
  | FP.ninf, FP.ninf => FP.nan
  | FP.inf, FP.num b => if 0 ≤ b then FP.inf else FP.ninf
  | FP.ninf, FP.num b => if 0 ≤ b then FP.ninf else FP.inf
  | FP.num _, FP.inf => FP.num 0
  | FP.num _, FP.ninf => FP.num 0
  | FP.num a, FP.num b =>
    if b = 0 then (if a = 0 then FP.nan else if 0 < a then FP.inf else FP.ninf)
    else FP.num (a / b)

/-- True exactly on finite cells. -/
def FP.finite : FP → Bool
  | FP.num _ => true
  | _ => false

/-- `.replace(0, np.nan)` on one cell — the zero-denominator guard. -/
def replace0 (x : FP) : FP := if x = FP.num 0 then FP.nan else x

/-- Lift a raw (finite) column value. -/
def fpn (q : ℚ) : FP := FP.num q

/-- `pct_unserved` at float semantics. -/
def pct_unservedF (r : Row) : FP :=
  FP.mul (FP.div (fpn r.UnservedBSLs) (fpn r.TotalBSLs)) (fpn 100)

/-- `pct_underserved` at float semantics. -/
def pct_underservedF (r : Row) : FP :=
  FP.mul (FP.div (fpn r.UnderservedBSLs) (fpn r.TotalBSLs)) (fpn 100)

/-- `pct_unserved_underserved` at float semantics. -/
def pct_unserved_underservedF (r : Row) : FP :=
  FP.mul (FP.div (FP.add (fpn r.UnservedBSLs) (fpn r.UnderservedBSLs)) (fpn r.TotalBSLs))
    (fpn 100)

/-- `pct_fiber_unserved` at float semantics. -/
def pct_fiber_unservedF (r : Row) : FP :=
  FP.mul (FP.div (fpn r.UnservedBSLsFiber) (fpn r.TotalBSLs)) (fpn 100)

/-- `pct_no_fiber` at float semantics. -/
def pct_no_fiberF (r : Row) : FP :=
  FP.mul (FP.div (FP.sub (fpn r.TotalBSLs) (fpn r.ServedBSLsFiber)) (fpn r.TotalBSLs)) (fpn 100)

/-- `pct_copper_served` at float semantics. -/
def pct_copper_servedF (r : Row) : FP :=
  FP.mul (FP.div (fpn r.ServedBSLsCopper) (fpn r.TotalBSLs)) (fpn 100)

/-- `pct_no_internet` at float semantics. -/
def pct_no_internetF (r : Row) : FP :=
  FP.mul (FP.div (fpn r.hh_no_internet) (fpn r.hh_total)) (fpn 100)

/-- `pct_cellular_only` at float semantics. -/
def pct_cellular_onlyF (r : Row) : FP :=
  FP.mul (FP.div (fpn r.hh_cellular_only) (fpn r.hh_total)) (fpn 100)

/-- `pct_broadband` at float semantics. -/
def pct_broadbandF (r : Row) : FP :=
  FP.mul (FP.div (fpn r.hh_broadband_any) (fpn r.hh_total)) (fpn 100)

/-- `pct_cable_fiber_dsl` at float semantics. -/
def pct_cable_fiber_dslF (r : Row) : FP :=
  FP.mul (FP.div (fpn r.hh_cable_fiber_dsl) (fpn r.hh_total)) (fpn 100)

/-- `pct_served` at float semantics. -/
def pct_servedF (r : Row) : FP :=
  FP.mul (FP.div (fpn r.ServedBSLs) (fpn r.TotalBSLs)) (fpn 100)

/-- `adoption_gap = pct_served - pct_broadband` at float semantics. -/
def adoption_gapF (r : Row) : FP := FP.sub (pct_servedF r) (pct_broadbandF r)

/-- `pct_bachelors_plus`: guarded — the education denominator is
`edu_total_25plus.replace(0, np.nan)`. -/
def pct_bachelors_plusF (r : Row) : FP :=
  FP.mul
    (FP.div
      (FP.add (FP.add (FP.add (fpn r.edu_bachelors) (fpn r.edu_masters))
        (fpn r.edu_professional)) (fpn r.edu_doctorate))
      (replace0 (fpn r.edu_total_25plus)))
    (fpn 100)

/-- `unemployment_rate`: guarded — denominator
`emp_civilian_labor.replace(0, np.nan)`. -/
def unemployment_rateF (r : Row) : FP :=
  FP.mul (FP.div (fpn r.emp_unemployed) (replace0 (fpn r.emp_civilian_labor))) (fpn 100)

/-- `pct_minority`: guarded — denominator `race_total.replace(0, np.nan)`. -/
def pct_minorityF (r : Row) : FP :=
  FP.mul (FP.div (FP.sub (fpn r.race_total) (fpn r.race_nh_white))
    (replace0 (fpn r.race_total))) (fpn 100)

/-- `hh_per_bsl = hh_total / TotalBSLs` at float semantics. -/
def hh_per_bslF (r : Row) : FP := FP.div (fpn r.hh_total) (fpn r.TotalBSLs)

/-- `pct_no_computer`: guarded — denominator `comp_total_hh.replace(0, np.nan)`. -/
def pct_no_computerF (r : Row) : FP :=
  FP.mul (FP.div (fpn r.comp_no_computer) (replace0 (fpn r.comp_total_hh))) (fpn 100)

/-- Every float-valued metric `compute_derived_metrics` assigns by a
division (the `has_fiber` flag involves no division). -/
def derivedMetricsF (r : Row) : List FP :=
  [pct_unservedF r, pct_underservedF r, pct_unserved_underservedF r, pct_fiber_unservedF r,
   pct_no_fiberF r, pct_copper_servedF r, pct_no_internetF r, pct_cellular_onlyF r,
   pct_broadbandF r, pct_cable_fiber_dslF r, pct_servedF r, adoption_gapF r,
   pct_bachelors_plusF r, unemployment_rateF r, pct_minorityF r, hh_per_bslF r,
   pct_no_computerF r]

/-! ### Concrete sample data (used by the witnesses) -/

/-- A sample retained tract row (all filter conditions positive, income
present, rurality code 4). -/
def sampleRowA : Row :=
  { GEOID := "51001090100"
    StateAbbr := "VA"
    CountyName := "Accomack County"
    county_geoid := "51001"
    rucc_code := some 4
    total_population := 100
    hh_total := 40
    hh_no_internet := 10
    hh_cellular_only := 5
    hh_broadband_any := 20
    hh_cable_fiber_dsl := 15
    median_hh_income := some 50000
    edu_bachelors := 10
    edu_masters := 5
    edu_professional := 2
    edu_doctorate := 1
    edu_total_25plus := 60
    emp_unemployed := 4
    emp_civilian_labor := 50
    race_total := 100
    race_nh_white := 80
    comp_no_computer := 5
    comp_total_hh := 40
    TotalBSLs := 10
    UnservedBSLs := 4
    UnderservedBSLs := 2
    ServedBSLs := 4
    UnservedBSLsFiber := 3
    ServedBSLsFiber := 1
    ServedBSLsCopper := 3
    UniqueProviders := 2
    UniqueProvidersFiber := 1 }

/-- A sample retained tract row with missing income and no rurality
classification. -/
def sampleRowB : Row :=
  { GEOID := "21001080200"
    StateAbbr := "KY"
    CountyName := "Adair County"
    county_geoid := "21001"
    rucc_code := none
    total_population := 200
    hh_total := 80
    hh_no_internet := 30
    hh_cellular_only := 20
    hh_broadband_any := 30
    hh_cable_fiber_dsl := 25
    median_hh_income := none
    edu_bachelors := 5
    edu_masters := 2
    edu_professional := 1
    edu_doctorate := 0
    edu_total_25plus := 100
    emp_unemployed := 10
    emp_civilian_labor := 80
    race_total := 200
    race_nh_white := 150
    comp_no_computer := 20
    comp_total_hh := 80
    TotalBSLs := 20
    UnservedBSLs := 10
    UnderservedBSLs := 5
    ServedBSLs := 5
    UnservedBSLsFiber := 8
    ServedBSLsFiber := 0
    ServedBSLsCopper := 5
    UniqueProviders := 1
    UniqueProvidersFiber := 0 }

/-- Two-row sample table. -/
def sampleDf : List Row := [sampleRowA, sampleRowB]

/-- Three-row table with a tied pair at the top of the composite-score
order. -/
def dfTie : List Row := [sampleRowB, sampleRowB, sampleRowA]

/-! ## Lemmas: the percentile normalizer is rank-based and bounded -/

theorem countSome_add_countNone (xs : List (Option ℚ)) :
    countSome xs + countNone xs = xs.length := by
  induction xs with
  | nil => rfl
  | cons x t ih =>
    cases x <;> simp [countSome, countNone, List.countP_cons] at ih ⊢ <;> omega

theorem countLt_add_countEq_le (xs : List (Option ℚ)) (v : ℚ) :
    countLt xs v + countEq xs v ≤ countSome xs := by
  induction xs with
  | nil => simp [countLt, countEq, countSome]
  | cons x t ih =>
    simp only [countLt, countEq, countSome, List.countP_cons] at ih ⊢
    cases x with
    | none => simpa using ih
    | some w =>
      rcases eq_or_ne w v with h2 | h2
      · subst h2
        simp
        all_goals omega
      · by_cases h1 : w < v <;> simp [h1, h2] <;> omega

theorem countEq_pos (xs : List (Option ℚ)) (v : ℚ) (hv : some v ∈ xs) :
    0 < countEq xs v :=
  List.countP_pos_iff.mpr ⟨some v, hv, by simp⟩

theorem countNone_pos (xs : List (Option ℚ)) (hn : (none : Option ℚ) ∈ xs) :
    0 < countNone xs :=
  List.countP_pos_iff.mpr ⟨none, hn, by simp⟩

theorem countSome_le_length (xs : List (Option ℚ)) : countSome xs ≤ xs.length := by
  have := countSome_add_countNone xs
  omega

theorem avgRank_ge_one (xs : List (Option ℚ)) (x : Option ℚ) (hx : x ∈ xs) :
    1 ≤ avgRank xs x := by
  cases x with
  | some v =>
    have he : 0 < countEq xs v := countEq_pos xs v hx
    have he' : (1 : ℚ) ≤ (countEq xs v : ℚ) := by exact_mod_cast he
    have hc : (0 : ℚ) ≤ (countLt xs v : ℚ) := by positivity
    simp only [avgRank]
    linarith
  | none =>
    have hk : 0 < countNone xs := countNone_pos xs hx
    have hk' : (1 : ℚ) ≤ (countNone xs : ℚ) := by exact_mod_cast hk
    have hm : (0 : ℚ) ≤ (countSome xs : ℚ) := by positivity
    simp only [avgRank]
    linarith

theorem avgRank_some_le_countSome (xs : List (Option ℚ)) (v : ℚ) (hv : some v ∈ xs) :
    avgRank xs (some v) ≤ (countSome xs : ℚ) := by
  have hle := countLt_add_countEq_le xs v
  have he : 0 < countEq xs v := countEq_pos xs v hv
  have hle' : (countLt xs v : ℚ) + (countEq xs v : ℚ) ≤ (countSome xs : ℚ) := by
    exact_mod_cast hle
  have he' : (1 : ℚ) ≤ (countEq xs v : ℚ) := by exact_mod_cast he
  simp only [avgRank]
  linarith

theorem countSome_lt_avgRank_none (xs : List (Option ℚ)) (hn : (none : Option ℚ) ∈ xs) :
    (countSome xs : ℚ) < avgRank xs none := by
  have hk : 0 < countNone xs := countNone_pos xs hn
  have hk' : (1 : ℚ) ≤ (countNone xs : ℚ) := by exact_mod_cast hk
  simp only [avgRank]
  linarith

theorem avgRank_le_length (xs : List (Option ℚ)) (x : Option ℚ) (hx : x ∈ xs) :
    avgRank xs x ≤ (xs.length : ℚ) := by
  have htot := countSome_add_countNone xs
  cases x with
  | some v =>
    have h1 := avgRank_some_le_countSome xs v hx
    have h2 : (countSome xs : ℚ) ≤ (xs.length : ℚ) := by
      exact_mod_cast countSome_le_length xs
    linarith
  | none =>
    have hk : 0 < countNone xs := countNone_pos xs hx
    have hk' : (1 : ℚ) ≤ (countNone xs : ℚ) := by exact_mod_cast hk
    have htot' : (countSome xs : ℚ) + (countNone xs : ℚ) = (xs.length : ℚ) := by
      exact_mod_cast htot
    simp only [avgRank]
    linarith

theorem length_pos_of_mem {xs : List (Option ℚ)} {x : Option ℚ} (hx : x ∈ xs) :
    (0 : ℚ) < (xs.length : ℚ) := by
  have : 0 < xs.length := List.length_pos.mpr (List.ne_nil_of_mem hx)
  exact_mod_cast this

theorem pctRank_pos (xs : List (Option ℚ)) (x : Option ℚ) (hx : x ∈ xs) :
    0 < pctRank xs x := by
  have h1 := avgRank_ge_one xs x hx
  have hN := length_pos_of_mem hx
  have : (0 : ℚ) < avgRank xs x := by linarith
  exact div_pos this hN

theorem pctRank_le_one (xs : List (Option ℚ)) (x : Option ℚ) (hx : x ∈ xs) :
    pctRank xs x ≤ 1 := by
  have h2 := avgRank_le_length xs x hx
  have hN := length_pos_of_mem hx
  rw [pctRank, div_le_one hN]
  exact h2

theorem percentileAt_nonneg (xs : List (Option ℚ)) (b : Bool) (x : Option ℚ) (hx : x ∈ xs) :
    0 ≤ percentileAt xs b x := by
  have h1 := pctRank_pos xs x hx
  have h2 := pctRank_le_one xs x hx
  cases b <;> simp only [percentileAt, if_true, if_false, Bool.false_eq_true] <;> nlinarith

theorem percentileAt_le_100 (xs : List (Option ℚ)) (b : Bool) (x : Option ℚ) (hx : x ∈ xs) :
    percentileAt xs b x ≤ 100 := by
  have h1 := pctRank_pos xs x hx
  have h2 := pctRank_le_one xs x hx
  cases b <;> simp only [percentileAt, if_true, if_false, Bool.false_eq_true] <;> nlinarith

theorem percentileAt_col_bounds (df : List Row) (g : Row → Option ℚ) (b : Bool) (r : Row)
    (hr : r ∈ df) :
    0 ≤ percentileAt (df.map g) b (g r) ∧ percentileAt (df.map g) b (g r) ≤ 100 :=
  ⟨percentileAt_nonneg _ _ _ (List.mem_map_of_mem g hr),
   percentileAt_le_100 _ _ _ (List.mem_map_of_mem g hr)⟩

theorem lowIncomePenalty_nonneg (x : Option ℚ) : 0 ≤ lowIncomePenalty x := by
  rcases x with _ | v
  · norm_num [lowIncomePenalty]
  · simp only [lowIncomePenalty]
    split_ifs <;> norm_num

theorem lowIncomePenalty_le_one (x : Option ℚ) : lowIncomePenalty x ≤ 1 := by
  rcases x with _ | v
  · norm_num [lowIncomePenalty]
  · simp only [lowIncomePenalty]
    split_ifs <;> norm_num

theorem income_fill_mem (df : List Row) (r : Row) (hr : r ∈ df) :
    income_fill df r.median_hh_income ∈ income_filled_col df :=
  List.mem_map_of_mem _ (List.mem_map_of_mem _ hr)

theorem demand_income_score_bounds (df : List Row) (r : Row) (hr : r ∈ df) :
    0 ≤ demand_income_score df r ∧ demand_income_score df r ≤ 100 := by
  have hmem := income_fill_mem df r hr
  have hp0 := percentileAt_nonneg (income_filled_col df) true _ hmem
  have hp1 := percentileAt_le_100 (income_filled_col df) true _ hmem
  have hq0 := lowIncomePenalty_nonneg (income_fill df r.median_hh_income)
  have hq1 := lowIncomePenalty_le_one (income_fill df r.median_hh_income)
  constructor
  · exact mul_nonneg hp0 hq0
  · calc demand_income_score df r ≤ percentileAt (income_filled_col df) true
          (income_fill df r.median_hh_income) := mul_le_of_le_one_right hp0 hq1
      _ ≤ 100 := hp1

theorem rucc_lookup_bounds (oc : Option ℤ) :
    0 ≤ ((oc.bind rucc_map).getD 50 : ℚ) ∧ ((oc.bind rucc_map).getD 50 : ℚ) ≤ 100 := by
  cases oc with
  | none => norm_num
  | some c =>
    simp only [Option.some_bind, rucc_map]
    split_ifs <;> norm_num

theorem score_supply_gap_bounds (df : List Row) (r : Row) (hr : r ∈ df) :
    0 ≤ score_supply_gap df r ∧ score_supply_gap df r ≤ 100 := by
  obtain ⟨h1l, h1u⟩ := percentileAt_col_bounds df (fun t => some t.UniqueProvidersFiber) false r hr
  obtain ⟨h2l, h2u⟩ := percentileAt_col_bounds df (fun t => some (pct_no_fiber t)) true r hr
  obtain ⟨h3l, h3u⟩ :=
    percentileAt_col_bounds df (fun t => some (pct_unserved_underserved t)) true r hr
  obtain ⟨h4l, h4u⟩ := percentileAt_col_bounds df (fun t => some (pct_copper_served t)) true r hr
  obtain ⟨h5l, h5u⟩ := percentileAt_col_bounds df (fun t => some t.UniqueProviders) false r hr
  constructor <;> (simp only [score_supply_gap]; linarith)

theorem score_demand_signal_bounds (df : List Row) (r : Row) (hr : r ∈ df) :
    0 ≤ score_demand_signal df r ∧ score_demand_signal df r ≤ 100 := by
  obtain ⟨h1l, h1u⟩ := demand_income_score_bounds df r hr
  obtain ⟨h2l, h2u⟩ := percentileAt_col_bounds df (fun t => some t.TotalBSLs) true r hr
  obtain ⟨h3l, h3u⟩ := percentileAt_col_bounds df (fun t => some (pct_cellular_only t)) true r hr
  obtain ⟨h4l, h4u⟩ :=
    percentileAt_col_bounds df (fun t => some (max (adoption_gap t) 0)) true r hr
  obtain ⟨h5l, h5u⟩ := percentileAt_col_bounds df (fun t => some t.total_population) true r hr
  constructor <;> (simp only [score_demand_signal]; linarith)

theorem score_funding_tailwind_bounds (df : List Row) (r : Row) (hr : r ∈ df) :
    0 ≤ score_funding_tailwind df r ∧ score_funding_tailwind df r ≤ 100 := by
  obtain ⟨h1l, h1u⟩ := percentileAt_col_bounds df (fun t => some t.UnservedBSLs) true r hr
  obtain ⟨h2l, h2u⟩ := percentileAt_col_bounds df (fun t => some (pct_unserved t)) true r hr
  obtain ⟨h3l, h3u⟩ := percentileAt_col_bounds df (fun t => some t.UnderservedBSLs) true r hr
  obtain ⟨h4l, h4u⟩ :=
    percentileAt_col_bounds df (fun t => some (pct_unserved_underserved t)) true r hr
  constructor <;> (simp only [score_funding_tailwind]; linarith)

theorem score_build_feasibility_bounds (df : List Row) (r : Row) (hr : r ∈ df) :
    0 ≤ score_build_feasibility df r ∧ score_build_feasibility df r ≤ 100 := by
  obtain ⟨h1l, h1u⟩ := rucc_lookup_bounds r.rucc_code
  obtain ⟨h3l, h3u⟩ := percentileAt_col_bounds df (fun t => some t.UniqueProviders) false r hr
  have h2 : ∀ p : ℚ,
      (0 : ℚ) ≤ (if p < 0.1 then (20 : ℚ) else if p < 0.3 then 50 else if p < 0.7 then 85
        else if p < 0.9 then 60 else 30) ∧
      (if p < 0.1 then (20 : ℚ) else if p < 0.3 then 50 else if p < 0.7 then 85
        else if p < 0.9 then 60 else 30) ≤ 100 := by
    intro p
    split_ifs <;> norm_num
  obtain ⟨h2l, h2u⟩ := h2 (pctRank (df.map fun t => some t.TotalBSLs) (some r.TotalBSLs))
  constructor <;> (simp only [score_build_feasibility]; linarith)

theorem opportunity_score_bounds (df : List Row) (r : Row) (hr : r ∈ df) :
    0 ≤ opportunity_score df r ∧ opportunity_score df r ≤ 100 := by
  obtain ⟨h1l, h1u⟩ := score_supply_gap_bounds df r hr
  obtain ⟨h2l, h2u⟩ := score_demand_signal_bounds df r hr
  obtain ⟨h3l, h3u⟩ := score_funding_tailwind_bounds df r hr
  obtain ⟨h4l, h4u⟩ := score_build_feasibility_bounds df r hr
  constructor <;> (simp only [opportunity_score]; linarith)

/-- A sample ACS row matching `sampleRowA`'s demographic fields. -/
def sampleAcsA : AcsRow :=
  { GEOID := "51001090100"
    total_population := 100
    hh_total := 40
    hh_no_internet := 10
    hh_cellular_only := 5
    hh_broadband_any := 20
    hh_cable_fiber_dsl := 15
    median_hh_income := some 50000
    edu_bachelors := 10
    edu_masters := 5
    edu_professional := 2
    edu_doctorate := 1
    edu_total_25plus := 60
    emp_unemployed := 4
    emp_civilian_labor := 50
    race_total := 100
    race_nh_white := 80
    comp_no_computer := 5
    comp_total_hh := 40 }

/-- A sample FCC row matching `sampleRowA`'s supply fields (same GEOID
as `sampleAcsA`). -/
def sampleFccA : FccRow :=
  { GEOID := "51001090100"
    StateAbbr := "VA"
    CountyName := "Accomack County"
    TotalBSLs := 10
    UnservedBSLs := 4
    UnderservedBSLs := 2
    ServedBSLs := 4
    UnservedBSLsFiber := 3
    ServedBSLsFiber := 1
    ServedBSLsCopper := 3
    UniqueProviders := 2
    UniqueProvidersFiber := 1 }

/-- A sample FCC row whose GEOID matches no ACS row above. -/
def sampleFccB : FccRow :=
  { GEOID := "21001080200"
    StateAbbr := "KY"
    CountyName := "Adair County"
    TotalBSLs := 20
    UnservedBSLs := 10
    UnderservedBSLs := 5
    ServedBSLs := 5
    UnservedBSLsFiber := 8
    ServedBSLsFiber := 0
    ServedBSLsCopper := 5
    UniqueProviders := 1
    UniqueProvidersFiber := 0 }

/-- The merged row produced from `sampleAcsA` + `sampleFccA` when the
rurality table is empty. -/
def sampleNoRuccRow : Row :=
  { GEOID := "51001090100"
    StateAbbr := "VA"
    CountyName := "Accomack County"
    county_geoid := "51001090100".take 5
    rucc_code := none
    total_population := 100
    hh_total := 40
    hh_no_internet := 10
    hh_cellular_only := 5
    hh_broadband_any := 20
    hh_cable_fiber_dsl := 15
    median_hh_income := some 50000
    edu_bachelors := 10
    edu_masters := 5
    edu_professional := 2
    edu_doctorate := 1
    edu_total_25plus := 60
    emp_unemployed := 4
    emp_civilian_labor := 50
    race_total := 100
    race_nh_white := 80
    comp_no_computer := 5
    comp_total_hh := 40
    TotalBSLs := 10
    UnservedBSLs := 4
    UnderservedBSLs := 2
    ServedBSLs := 4
    UnservedBSLsFiber := 3
    ServedBSLsFiber := 1
    ServedBSLsCopper := 3
    UniqueProviders := 2
    UniqueProvidersFiber := 1 }

/-- The one-row table the loader produces from the sample inputs with an
empty rurality table. -/
def sampleNoRuccDf : List Row := [sampleNoRuccRow]

/-- The scored record of `sampleNoRuccRow` in its one-row table. -/
def sampleNoRuccScored : ScoredRow :=
  { row := sampleNoRuccRow
    score_supply_gap := score_supply_gap sampleNoRuccDf sampleNoRuccRow
    score_demand_signal := score_demand_signal sampleNoRuccDf sampleNoRuccRow
    score_funding_tailwind := score_funding_tailwind sampleNoRuccDf sampleNoRuccRow
    score_build_feasibility := score_build_feasibility sampleNoRuccDf sampleNoRuccRow
    opportunity_score := opportunity_score sampleNoRuccDf sampleNoRuccRow
    opportunity_rank := opportunity_rank sampleNoRuccDf sampleNoRuccRow
    opportunity_tier := opportunity_tier (opportunity_score sampleNoRuccDf sampleNoRuccRow) }

/-- The scored record of `sampleRowA` in the two-row sample table. -/
def sampleScoredA : ScoredRow :=
  { row := sampleRowA
    score_supply_gap := score_supply_gap sampleDf sampleRowA
    score_demand_signal := score_demand_signal sampleDf sampleRowA
    score_funding_tailwind := score_funding_tailwind sampleDf sampleRowA
    score_build_feasibility := score_build_feasibility sampleDf sampleRowA
    opportunity_score := opportunity_score sampleDf sampleRowA
    opportunity_rank := opportunity_rank sampleDf sampleRowA
    opportunity_tier := opportunity_tier (opportunity_score sampleDf sampleRowA) }

/-! ## Claim theorems -/

/-- C1: for every scored tract, the composite opportunity score equals
the fixed linear combination 0.40·SupplyGap + 0.30·DemandSignal +
0.15·FundingTailwind + 0.15·BuildFeasibility, hence agrees with it to
within an absolute error of 1e-9. -/
theorem composite_is_linear_combination (df : List Row) (sr : ScoredRow)
    (h : sr ∈ build_composite_score df) :
    |sr.opportunity_score - (0.40 * sr.score_supply_gap + 0.30 * sr.score_demand_signal +
      0.15 * sr.score_funding_tailwind + 0.15 * sr.score_build_feasibility)| < 1e-9 := by
  simp only [build_composite_score, List.mem_map] at h
  obtain ⟨r, hr, rfl⟩ := h
  show |opportunity_score df r - (0.40 * score_supply_gap df r + 0.30 * score_demand_signal df r
    + 0.15 * score_funding_tailwind df r + 0.15 * score_build_feasibility df r)| < 1e-9
  have heq : opportunity_score df r - (0.40 * score_supply_gap df r +
      0.30 * score_demand_signal df r + 0.15 * score_funding_tailwind df r +
      0.15 * score_build_feasibility df r) = 0 := by
    simp only [opportunity_score]
    ring
  rw [heq, abs_zero]
  norm_num

/-- Witness for C1 at the concrete two-row sample table. -/
theorem composite_is_linear_combination_witness :
    sampleScoredA ∈ build_composite_score sampleDf ∧
    |sampleScoredA.opportunity_score - (0.40 * sampleScoredA.score_supply_gap +
      0.30 * sampleScoredA.score_demand_signal + 0.15 * sampleScoredA.score_funding_tailwind +
      0.15 * sampleScoredA.score_build_feasibility)| < 1e-9 :=
  ⟨by simp [sampleScoredA, build_composite_score, sampleDf],
   composite_is_linear_combination sampleDf sampleScoredA
     (by simp [sampleScoredA, build_composite_score, sampleDf])⟩

/-- C3: for every scored tract, the four sub-scores and the composite
score all lie in [0, 100], for arbitrary (even out-of-range) raw column
values. -/
theorem all_scores_in_range (df : List Row) (sr : ScoredRow)
    (h : sr ∈ build_composite_score df) :
    (0 ≤ sr.score_supply_gap ∧ sr.score_supply_gap ≤ 100) ∧
    (0 ≤ sr.score_demand_signal ∧ sr.score_demand_signal ≤ 100) ∧
    (0 ≤ sr.score_funding_tailwind ∧ sr.score_funding_tailwind ≤ 100) ∧
    (0 ≤ sr.score_build_feasibility ∧ sr.score_build_feasibility ≤ 100) ∧
    (0 ≤ sr.opportunity_score ∧ sr.opportunity_score ≤ 100) := by
  simp only [build_composite_score, List.mem_map] at h
  obtain ⟨r, hr, rfl⟩ := h
  exact ⟨score_supply_gap_bounds df r hr, score_demand_signal_bounds df r hr,
    score_funding_tailwind_bounds df r hr, score_build_feasibility_bounds df r hr,
    opportunity_score_bounds df r hr⟩

/-- Witness for C3 at the concrete two-row sample table. -/
theorem all_scores_in_range_witness :
    sampleScoredA ∈ build_composite_score sampleDf ∧
    ((0 ≤ sampleScoredA.score_supply_gap ∧ sampleScoredA.score_supply_gap ≤ 100) ∧
     (0 ≤ sampleScoredA.score_demand_signal ∧ sampleScoredA.score_demand_signal ≤ 100) ∧
     (0 ≤ sampleScoredA.score_funding_tailwind ∧ sampleScoredA.score_funding_tailwind ≤ 100) ∧
     (0 ≤ sampleScoredA.score_build_feasibility ∧ sampleScoredA.score_build_feasibility ≤ 100) ∧
     (0 ≤ sampleScoredA.opportunity_score ∧ sampleScoredA.opportunity_score ≤ 100)) :=
  ⟨by simp [sampleScoredA, build_composite_score, sampleDf],
   all_scores_in_range sampleDf sampleScoredA
     (by simp [sampleScoredA, build_composite_score, sampleDf])⟩

theorem getD_mem_of_lt {xs : List (Option ℚ)} {i : ℕ} (hi : i < xs.length) (d : Option ℚ) :
    xs.getD i d ∈ xs := by
  rw [List.getD_eq_getElem?_getD, List.getElem?_eq_getElem hi]
  simpa using List.getElem_mem hi

theorem percentile_score_getD (xs : List (Option ℚ)) (b : Bool) (i : ℕ) (hi : i < xs.length)
    (d : Option ℚ) :
    (percentile_score xs b).getD i 0 = percentileAt xs b (xs.getD i d) := by
  rw [List.getD_eq_getElem?_getD, List.getD_eq_getElem?_getD, percentile_score,
    List.getElem?_map, List.getElem?_eq_getElem hi]
  simp

theorem percentileAt_some_lt_none (xs : List (Option ℚ)) (v : ℚ) (hv : some v ∈ xs)
    (hn : (none : Option ℚ) ∈ xs) :
    percentileAt xs true (some v) < percentileAt xs true none := by
  have h1 := avgRank_some_le_countSome xs v hv
  have h2 := countSome_lt_avgRank_none xs hn
  have hN := length_pos_of_mem hv
  have hlt : pctRank xs (some v) < pctRank xs none := by
    rw [pctRank, pctRank]
    exact div_lt_div_of_pos_right (lt_of_le_of_lt h1 h2) hN
  simp only [percentileAt, if_true]
  nlinarith

/-- C2 counterexample: on the column `[some 1, none]` with
ascending=true, the missing row (index 1) receives score 100, strictly
above the present row's score 50 — a missing value does NOT get the
bottom rank. -/
theorem missing_bottom_rank_counterexample :
    percentile_score [some 1, none] true = [50, 100] ∧
    ¬ ((percentile_score [some 1, none] true).getD 1 0 ≤
        (percentile_score [some 1, none] true).getD 0 0) := by
  constructor
  · norm_num [percentile_score, percentileAt, pctRank, avgRank, countLt, countEq, countSome,
      countNone, List.countP_cons, List.countP_nil]
  · norm_num [percentile_score, percentileAt, pctRank, avgRank, countLt, countEq, countSome,
      countNone, List.countP_cons, List.countP_nil]

/-- C2 (amended): in `percentile_score`, missing values are assigned the
HIGHEST percentile rank (pandas `na_option="bottom"` places NaN after
every present value), so with ascending=true a row with a missing value
receives a score strictly greater than the score of every row with a
present value. -/
theorem missing_assigned_highest_percentile (xs : List (Option ℚ)) (i j : ℕ) (v : ℚ)
    (hi : i < xs.length) (hj : j < xs.length)
    (hmi : xs.getD i (some 0) = none) (hmj : xs.getD j (some 0) = some v) :
    (percentile_score xs true).getD j 0 < (percentile_score xs true).getD i 0 := by
  rw [percentile_score_getD xs true i hi (some 0), percentile_score_getD xs true j hj (some 0),
    hmi, hmj]
  apply percentileAt_some_lt_none
  · rw [← hmj]; exact getD_mem_of_lt hj _
  · rw [← hmi]; exact getD_mem_of_lt hi _

/-- Witness for the amended C2 on the concrete column `[some 1, none]`. -/
theorem missing_assigned_highest_percentile_witness :
    (1 < ([some (1 : ℚ), none]).length ∧ 0 < ([some (1 : ℚ), none]).length ∧
      ([some (1 : ℚ), none]).getD 1 (some 0) = none ∧
      ([some (1 : ℚ), none]).getD 0 (some 0) = some 1) ∧
    (percentile_score [some 1, none] true).getD 0 0 <
      (percentile_score [some 1, none] true).getD 1 0 :=
  ⟨⟨by norm_num, by norm_num, rfl, rfl⟩,
   missing_assigned_highest_percentile [some 1, none] 1 0 1 (by norm_num) (by norm_num) rfl rfl⟩

/-! ## Rank lemmas (C4) -/

theorem countEqQ_pos (S : List ℚ) (a : ℚ) (ha : a ∈ S) : 0 < countEqQ S a :=
  List.countP_pos_iff.mpr ⟨a, ha, by simp⟩

theorem countGt_add_countEqQ_le (S : List ℚ) (a b : ℚ) (hab : b < a) :
    countGt S a + countEqQ S a ≤ countGt S b := by
  induction S with
  | nil => simp [countGt, countEqQ]
  | cons w t ih =>
    simp only [countGt, countEqQ, List.countP_cons] at ih ⊢
    by_cases h1 : a < w
    · have hbw : b < w := lt_trans hab h1
      have hne : ¬ w = a := by intro he; exact absurd (he ▸ h1) (lt_irrefl a)
      simp [h1, hbw, hne]
      omega
    · by_cases h2 : w = a
      · simp [h1, h2, hab]
        omega
      · by_cases h3 : b < w <;> simp [h1, h2, h3] <;> omega

theorem rankDesc_nonneg (S : List ℚ) (v : ℚ) : 0 ≤ rankDesc S v := by
  simp only [rankDesc]
  positivity

theorem rank_lt_of_gt (S : List ℚ) (a b : ℚ) (ha : a ∈ S) (hb : b ∈ S) (hab : b < a) :
    astype_int (rankDesc S a) < astype_int (rankDesc S b) := by
  have hga := countGt_add_countEqQ_le S a b hab
  have hea : 0 < countEqQ S a := countEqQ_pos S a ha
  have heb : 0 < countEqQ S b := countEqQ_pos S b hb
  have h1 : rankDesc S a ≤ (((countGt S a + countEqQ S a : ℕ) : ℤ) : ℚ) := by
    simp only [rankDesc]
    push_cast
    have hea' : (1 : ℚ) ≤ (countEqQ S a : ℚ) := by exact_mod_cast hea
    linarith
  have h2 : (((countGt S a + countEqQ S a : ℕ) : ℤ) : ℚ) + 1 ≤ rankDesc S b := by
    simp only [rankDesc]
    push_cast
    have hga' : ((countGt S a : ℚ) + (countEqQ S a : ℚ)) ≤ (countGt S b : ℚ) := by
      exact_mod_cast hga
    have heb' : (1 : ℚ) ≤ (countEqQ S b : ℚ) := by exact_mod_cast heb
    linarith
  rw [astype_int, astype_int, if_pos (rankDesc_nonneg S a), if_pos (rankDesc_nonneg S b)]
  have hfa : ⌊rankDesc S a⌋ ≤ ((countGt S a + countEqQ S a : ℕ) : ℤ) := by
    have := Int.floor_le_floor h1
    rwa [Int.floor_intCast] at this
  have hfb : ((countGt S a + countEqQ S a : ℕ) : ℤ) + 1 ≤ ⌊rankDesc S b⌋ := by
    rw [Int.le_floor]
    push_cast
    push_cast at h2
    linarith
  omega

/-- C4 (amended): the opportunity rank is the pandas average-method
descending rank truncated to an integer — tracts with equal composite
scores receive the same integer rank, and a strictly greater composite
score always yields a strictly smaller rank.  (The rank is NOT dense:
after a tie group the next distinct lower score skips ranks, see the
counterexample.) -/
theorem rank_ties_and_monotonicity (df : List Row) (sr1 sr2 : ScoredRow)
    (h1 : sr1 ∈ build_composite_score df) (h2 : sr2 ∈ build_composite_score df) :
    (sr1.opportunity_score = sr2.opportunity_score →
      sr1.opportunity_rank = sr2.opportunity_rank) ∧
    (sr2.opportunity_score < sr1.opportunity_score →
      sr1.opportunity_rank < sr2.opportunity_rank) := by
  simp only [build_composite_score, List.mem_map] at h1 h2
  obtain ⟨r1, hr1, rfl⟩ := h1
  obtain ⟨r2, hr2, rfl⟩ := h2
  constructor
  · intro he
    have he' : opportunity_score df r1 = opportunity_score df r2 := he
    show astype_int (rankDesc (scoreCol df) (opportunity_score df r1)) =
      astype_int (rankDesc (scoreCol df) (opportunity_score df r2))
    rw [he']
  · intro hlt
    have hlt' : opportunity_score df r2 < opportunity_score df r1 := hlt
    have hm1 : opportunity_score df r1 ∈ scoreCol df := List.mem_map_of_mem _ hr1
    have hm2 : opportunity_score df r2 ∈ scoreCol df := List.mem_map_of_mem _ hr2
    exact rank_lt_of_gt (scoreCol df) _ _ hm1 hm2 hlt'

/-- C5: the tier label of every scored tract is the right-inclusive
bucketing of its composite score: (0,30]→Low, (30,50]→Below Average,
(50,65]→Moderate, (65,80]→High, (80,100]→Very High; in particular 50
falls in Below Average, 30 in Low, 65 in Moderate, 80 in High, and a
composite score of exactly 0 receives a missing tier label. -/
theorem tier_right_inclusive_buckets (df : List Row) (sr : ScoredRow)
    (h : sr ∈ build_composite_score df) :
    sr.opportunity_tier = opportunity_tier sr.opportunity_score ∧
    opportunity_tier 50 = some Tier.BelowAverage ∧
    opportunity_tier 30 = some Tier.Low ∧
    opportunity_tier 65 = some Tier.Moderate ∧
    opportunity_tier 80 = some Tier.High ∧
    opportunity_tier 0 = none ∧
    (∀ q : ℚ, 0 < q → q ≤ 30 → opportunity_tier q = some Tier.Low) ∧
    (∀ q : ℚ, 30 < q → q ≤ 50 → opportunity_tier q = some Tier.BelowAverage) ∧
    (∀ q : ℚ, 50 < q → q ≤ 65 → opportunity_tier q = some Tier.Moderate) ∧
    (∀ q : ℚ, 65 < q → q ≤ 80 → opportunity_tier q = some Tier.High) ∧
    (∀ q : ℚ, 80 < q → q ≤ 100 → opportunity_tier q = some Tier.VeryHigh) := by
  refine ⟨?_, by norm_num [opportunity_tier], by norm_num [opportunity_tier],
    by norm_num [opportunity_tier], by norm_num [opportunity_tier],
    by norm_num [opportunity_tier], ?_, ?_, ?_, ?_, ?_⟩
  · simp only [build_composite_score, List.mem_map] at h
    obtain ⟨r, hr, rfl⟩ := h
    rfl
  · intro q hq1 hq2
    rw [opportunity_tier, if_pos ⟨hq1, hq2⟩]
  · intro q hq1 hq2
    rw [opportunity_tier, if_neg (by rintro ⟨_, hle⟩; linarith), if_pos ⟨hq1, hq2⟩]
  · intro q hq1 hq2
    rw [opportunity_tier, if_neg (by rintro ⟨_, hle⟩; linarith),
      if_neg (by rintro ⟨_, hle⟩; linarith), if_pos ⟨hq1, hq2⟩]
  · intro q hq1 hq2
    rw [opportunity_tier, if_neg (by rintro ⟨_, hle⟩; linarith),
      if_neg (by rintro ⟨_, hle⟩; linarith), if_neg (by rintro ⟨_, hle⟩; linarith),
      if_pos ⟨hq1, hq2⟩]
  · intro q hq1 hq2
    rw [opportunity_tier, if_neg (by rintro ⟨_, hle⟩; linarith),
      if_neg (by rintro ⟨_, hle⟩; linarith), if_neg (by rintro ⟨_, hle⟩; linarith),
      if_neg (by rintro ⟨_, hle⟩; linarith), if_pos ⟨hq1, hq2⟩]

/-- Witness for C5 at the concrete two-row sample table. -/
theorem tier_right_inclusive_buckets_witness :
    sampleScoredA ∈ build_composite_score sampleDf ∧
    sampleScoredA.opportunity_tier = opportunity_tier sampleScoredA.opportunity_score ∧
    opportunity_tier 50 = some Tier.BelowAverage ∧
    opportunity_tier 30 = some Tier.Low ∧
    opportunity_tier 65 = some Tier.Moderate ∧
    opportunity_tier 80 = some Tier.High ∧
    opportunity_tier 0 = none :=
  have hmem : sampleScoredA ∈ build_composite_score sampleDf := by
    simp [sampleScoredA, build_composite_score, sampleDf]
  have hthm := tier_right_inclusive_buckets sampleDf sampleScoredA hmem
  ⟨hmem, hthm.1, hthm.2.1, hthm.2.2.1, hthm.2.2.2.1, hthm.2.2.2.2.1, hthm.2.2.2.2.2.1⟩

/-- C6: in the Demand Signal engine, a missing income is imputed with
the population median of the present incomes before percentile ranking,
and the income percentile score is multiplied by 0.5 exactly when the
post-fill income (the imputed median for missing rows, the raw income
otherwise) is below 30000; the factor multiplies the already-normalized
percentile score. -/
theorem income_imputation_and_penalty (df : List Row) (r : Row) (hr : r ∈ df) (m : ℚ)
    (hm : medianQ (presentIncomes df) = some m) :
    (r.median_hh_income = none →
      income_fill df r.median_hh_income = some m ∧
      demand_income_score df r =
        percentileAt (income_filled_col df) true (some m) * (if m < 30000 then 0.5 else 1)) ∧
    (∀ v : ℚ, r.median_hh_income = some v →
      demand_income_score df r =
        percentileAt (income_filled_col df) true (some v) * (if v < 30000 then 0.5 else 1)) := by
  constructor
  · intro hnone
    have hf : income_fill df r.median_hh_income = some m := by
      rw [hnone]
      simp [income_fill, hm]
    refine ⟨hf, ?_⟩
    rw [demand_income_score, hf]
    simp [lowIncomePenalty]
  · intro v hv
    have hf : income_fill df r.median_hh_income = some v := by rw [hv, income_fill]
    rw [demand_income_score, hf]
    simp [lowIncomePenalty]

/-- Witness for C6: in the two-row sample table, `sampleRowB` has missing
income and the population median of present incomes is 50000. -/
theorem income_imputation_and_penalty_witness :
    (sampleRowB ∈ sampleDf ∧ medianQ (presentIncomes sampleDf) = some 50000 ∧
      sampleRowB.median_hh_income = none) ∧
    (income_fill sampleDf sampleRowB.median_hh_income = some 50000 ∧
      demand_income_score sampleDf sampleRowB =
        percentileAt (income_filled_col sampleDf) true (some 50000) *
          (if (50000 : ℚ) < 30000 then 0.5 else 1)) :=
  have hr : sampleRowB ∈ sampleDf := by simp [sampleDf]
  have hm : medianQ (presentIncomes sampleDf) = some 50000 := by
    norm_num [medianQ, presentIncomes, incomeCol, sampleDf, sampleRowA, sampleRowB, sortQ,
      insertSorted, List.filterMap_cons, List.filterMap_nil]
  ⟨⟨hr, hm, rfl⟩, (income_imputation_and_penalty sampleDf sampleRowB hr 50000 hm).1 rfl⟩

/-- C7 (the code contradicts the claim): with both primary input tables
empty — or with nonempty tables whose inner join on GEOID is empty — the
pipeline does not halt with a configuration error: it runs to completion
and produces the two output tables (both empty), which `main` persists
as `tract_scores.csv` and `county_scores.csv`.  Nothing in
`load_and_merge` or `main` checks for zero rows. -/
theorem empty_inputs_still_write_outputs :
    main_outputs [] [] [] = ([], []) ∧
    main_outputs [sampleAcsA] [sampleFccB] [] = ([], []) := by
  constructor
  · rfl
  · simp [main_outputs, load_and_merge, sampleAcsA, sampleFccB, build_composite_score,
      county_scores, county_groups, rollupKeys]

/-- C10: a scored tract whose rurality code is missing after the left
join is present in the tract-level output but belongs to no group of the
county rollup (pandas `groupby` drops rows with a missing group key), so
it is aggregated into no county-rollup row. -/
theorem null_rucc_excluded_from_rollup (acs : List AcsRow) (fcc : List FccRow)
    (rucc : List RuccRow) (sr : ScoredRow)
    (h : sr ∈ (main_outputs acs fcc rucc).1) (hn : sr.row.rucc_code = none) :
    sr ∈ (main_outputs acs fcc rucc).1 ∧
    ∀ g ∈ county_groups (main_outputs acs fcc rucc).1, sr ∉ g.2 := by
  refine ⟨h, ?_⟩
  intro g hg hmem
  simp only [county_groups, List.mem_map] at hg
  obtain ⟨k, hk, rfl⟩ := hg
  have hfil := (List.mem_filter.mp hmem).2
  rw [decide_eq_true_eq] at hfil
  rw [rollupKey, hn] at hfil
  simp at hfil

theorem load_and_merge_sample_eval :
    load_and_merge [sampleAcsA] [sampleFccA] [] = [sampleNoRuccRow] := by
  norm_num [load_and_merge, sampleAcsA, sampleFccA, sampleNoRuccRow, mkRow, cleanIncome]

theorem main_outputs_sample_fst :
    (main_outputs [sampleAcsA] [sampleFccA] []).1 = [sampleNoRuccScored] := by
  rw [main_outputs, load_and_merge_sample_eval]
  simp [build_composite_score, sampleNoRuccScored, sampleNoRuccDf]

/-- Witness for C10 on the concrete one-tract pipeline run with an empty
rurality table. -/
theorem null_rucc_excluded_from_rollup_witness :
    (sampleNoRuccScored ∈ (main_outputs [sampleAcsA] [sampleFccA] []).1 ∧
      sampleNoRuccScored.row.rucc_code = none) ∧
    (sampleNoRuccScored ∈ (main_outputs [sampleAcsA] [sampleFccA] []).1 ∧
      ∀ g ∈ county_groups (main_outputs [sampleAcsA] [sampleFccA] []).1,
        sampleNoRuccScored ∉ g.2) :=
  have hmem : sampleNoRuccScored ∈ (main_outputs [sampleAcsA] [sampleFccA] []).1 := by
    rw [main_outputs_sample_fst]
    simp
  ⟨⟨hmem, rfl⟩, null_rucc_excluded_from_rollup [sampleAcsA] [sampleFccA] [] sampleNoRuccScored
    hmem rfl⟩

/-! ## Percentile algebra (C8) -/

theorem percentile_desc_inversion (zs : List (Option ℚ)) (i : ℕ) (hi : i < zs.length) :
    (percentile_score zs false).getD i 0 = 100 - (percentile_score zs true).getD i 0 := by
  rw [percentile_score_getD zs false i hi (some 0), percentile_score_getD zs true i hi (some 0)]
  simp only [percentileAt, if_true, if_false, Bool.false_eq_true]
  ring

theorem countLt_map_some (ys : List ℚ) (v : ℚ) :
    countLt (ys.map some) v = ys.countP (fun w => decide (w < v)) := by
  rw [countLt, List.countP_map]
  rfl

theorem countEq_map_some (ys : List ℚ) (v : ℚ) :
    countEq (ys.map some) v = ys.countP (fun w => decide (w = v)) := by
  rw [countEq, List.countP_map]
  rfl

theorem countEq_nodup (ys : List ℚ) (hnd : ys.Nodup) (v : ℚ) (hv : v ∈ ys) :
    ys.countP (fun w => decide (w = v)) = 1 := by
  have hc : ys.count v = 1 := List.count_eq_one_of_mem hnd hv
  rw [← hc, List.count]
  apply List.countP_congr
  intro a _
  simp

theorem percentile_max_eq_100 (ys : List ℚ) (hnd : ys.Nodup) (v : ℚ) (hv : v ∈ ys)
    (hmax : ∀ w ∈ ys, w ≤ v) :
    percentileAt (ys.map some) true (some v) = 100 := by
  have hN : 0 < ys.length := List.length_pos.mpr (List.ne_nil_of_mem hv)
  have he : ys.countP (fun w => decide (w = v)) = 1 := countEq_nodup ys hnd v hv
  have hsplit : ys.length = ys.countP (fun w => decide (w < v)) +
      ys.countP (fun w => decide (w = v)) := by
    rw [List.length_eq_countP_add_countP (fun w => decide (w < v)) ys]
    congr 1
    apply List.countP_congr
    intro a ha
    simp only [Bool.not_eq_true', decide_eq_false_iff_not, decide_eq_true_eq]
    constructor
    · intro hb
      exact le_antisymm (hmax a ha) (not_lt.mp hb)
    · intro hb
      subst hb
      exact lt_irrefl a
  have hlt : ys.countP (fun w => decide (w < v)) = ys.length - 1 := by omega
  simp only [percentileAt, if_true, pctRank, avgRank, countLt_map_some, countEq_map_some,
    List.length_map, he, hlt]
  have hge : 1 ≤ ys.length := hN
  have hcast : ((ys.length - 1 : ℕ) : ℚ) = (ys.length : ℚ) - 1 := by
    rw [Nat.cast_sub hge]
    norm_num
  have hne : ((ys.length : ℚ)) ≠ 0 := by
    have : (0 : ℚ) < (ys.length : ℚ) := by exact_mod_cast hN
    linarith
  rw [hcast]
  field_simp

theorem percentile_min_le (ys : List ℚ) (hnd : ys.Nodup) (u : ℚ) (hu : u ∈ ys)
    (hmin : ∀ w ∈ ys, u ≤ w) :
    ∀ s ∈ percentile_score (ys.map some) true,
      percentileAt (ys.map some) true (some u) ≤ s := by
  intro s hs
  rw [percentile_score, List.mem_map] at hs
  obtain ⟨x, hx, rfl⟩ := hs
  have hzero : ys.countP (fun w => decide (w < u)) = 0 := by
    rw [List.countP_eq_zero]
    intro a ha
    simp only [decide_eq_true_eq]
    exact not_lt.mpr (hmin a ha)
  have he : ys.countP (fun w => decide (w = u)) = 1 := countEq_nodup ys hnd u hu
  have h1 : avgRank (ys.map some) (some u) = 1 := by
    simp only [avgRank, countLt_map_some, countEq_map_some, hzero, he]
    norm_num
  have h2 : 1 ≤ avgRank (ys.map some) x := avgRank_ge_one _ _ hx
  have hN : (0 : ℚ) < ((ys.map some).length : ℚ) := length_pos_of_mem hx
  simp only [percentileAt, if_true, pctRank, h1]
  have hdiv : (1 : ℚ) / ((ys.map some).length : ℚ) ≤
      avgRank (ys.map some) x / ((ys.map some).length : ℚ) :=
    (div_le_div_iff_of_pos_right hN).mpr h2
  nlinarith

/-- C8: for every column and every row index,
`score_desc[i] = 100 − score_asc[i]` pointwise; and on a duplicate-free
all-present column, ascending=true gives the maximum value the score 100
and gives the minimum value the lowest score of any row. -/
theorem percentile_inversion_and_extremes (ys : List ℚ) (hnd : ys.Nodup)
    (u v : ℚ) (hu : u ∈ ys) (hv : v ∈ ys)
    (hmin : ∀ w ∈ ys, u ≤ w) (hmax : ∀ w ∈ ys, w ≤ v) :
    (∀ (zs : List (Option ℚ)) (i : ℕ), i < zs.length →
      (percentile_score zs false).getD i 0 = 100 - (percentile_score zs true).getD i 0) ∧
    percentileAt (ys.map some) true (some v) = 100 ∧
    (∀ s ∈ percentile_score (ys.map some) true,
      percentileAt (ys.map some) true (some u) ≤ s) :=
  ⟨fun zs i hi => percentile_desc_inversion zs i hi,
   percentile_max_eq_100 ys hnd v hv hmax,
   percentile_min_le ys hnd u hu hmin⟩

/-- Witness for C8 on the concrete column `[1, 2, 3]`. -/
theorem percentile_inversion_and_extremes_witness :
    ([(1 : ℚ), 2, 3].Nodup ∧ (1 : ℚ) ∈ [(1 : ℚ), 2, 3] ∧ (3 : ℚ) ∈ [(1 : ℚ), 2, 3]) ∧
    ((percentile_score [some 1, some 2, some 3] false).getD 0 0 =
      100 - (percentile_score [some 1, some 2, some 3] true).getD 0 0) ∧
    percentileAt ([(1 : ℚ), 2, 3].map some) true (some 3) = 100 ∧
    (∀ s ∈ percentile_score ([(1 : ℚ), 2, 3].map some) true,
      percentileAt ([(1 : ℚ), 2, 3].map some) true (some 1) ≤ s) :=
  have hnd : [(1 : ℚ), 2, 3].Nodup := by norm_num
  have hu : (1 : ℚ) ∈ [(1 : ℚ), 2, 3] := by norm_num
  have hv : (3 : ℚ) ∈ [(1 : ℚ), 2, 3] := by norm_num
  have hmin : ∀ w ∈ [(1 : ℚ), 2, 3], 1 ≤ w := by
    intro w hw
    simp only [List.mem_cons, List.not_mem_nil, or_false] at hw
    rcases hw with rfl | rfl | rfl <;> norm_num
  have hmax : ∀ w ∈ [(1 : ℚ), 2, 3], w ≤ 3 := by
    intro w hw
    simp only [List.mem_cons, List.not_mem_nil, or_false] at hw
    rcases hw with rfl | rfl | rfl <;> norm_num
  have hthm := percentile_inversion_and_extremes [1, 2, 3] hnd 1 3 hu hv hmin hmax
  ⟨⟨hnd, hu, hv⟩, by simpa using hthm.1 [some 1, some 2, some 3] 0 (by norm_num),
    by simpa using hthm.2.1, by simpa using hthm.2.2⟩

/-! ## Guarded divisions in the derived-metrics stage (C9) -/

theorem fp_div_num_of_ne (a b : ℚ) (hb : b ≠ 0) :
    FP.div (FP.num a) (FP.num b) = FP.num (a / b) := by
  simp [FP.div, hb]

theorem ratio_metric_finite (a b : ℚ) (hb : b ≠ 0) :
    (FP.mul (FP.div (FP.num a) (FP.num b)) (FP.num 100)).finite = true := by
  rw [fp_div_num_of_ne a b hb]
  rfl

theorem guarded_metric_cases (a b : ℚ) :
    FP.mul (FP.div (FP.num a) (replace0 (FP.num b))) (FP.num 100) =
      if b = 0 then FP.nan else FP.num (a / b * 100) := by
  by_cases hb : b = 0
  · subst hb
    simp [replace0, FP.div, FP.mul]
  · rw [replace0, if_neg (by simpa using hb), fp_div_num_of_ne a b hb, if_neg hb]
    rfl

theorem fp_finite_not_inf (x : FP) (h : x.finite = true) : x ≠ FP.inf ∧ x ≠ FP.ninf := by
  cases x <;> simp_all [FP.finite]

theorem fp_sub_finite (x y : FP) (hx : x.finite = true) (hy : y.finite = true) :
    (FP.sub x y).finite = true := by
  cases x <;> cases y <;> simp_all [FP.finite, FP.sub]

theorem guarded_not_inf (a b : ℚ) :
    FP.mul (FP.div (FP.num a) (replace0 (FP.num b))) (FP.num 100) ≠ FP.inf ∧
    FP.mul (FP.div (FP.num a) (replace0 (FP.num b))) (FP.num 100) ≠ FP.ninf := by
  rw [guarded_metric_cases]
  by_cases h : b = 0 <;> simp [h]

theorem guarded_nan_iff (a b : ℚ) :
    (FP.mul (FP.div (FP.num a) (replace0 (FP.num b))) (FP.num 100) = FP.nan ↔ b = 0) := by
  rw [guarded_metric_cases]
  by_cases h : b = 0 <;> simp [h]

/-- C9: for every row passing the retention filter, no derived metric is
an infinity — the unguarded divisions all have strictly positive
denominators (`TotalBSLs`, `hh_total`) and are finite, and the four
guarded ratios (education, employment, race, computer-ownership
denominators) are missing (NaN) exactly when their denominator is zero,
rather than infinite or erroneous. -/
theorem derived_divisions_guarded (r : Row) (hp : 0 < r.total_population)
    (hh : 0 < r.hh_total) (hb : 0 < r.TotalBSLs) :
    (∀ m ∈ derivedMetricsF r, m ≠ FP.inf ∧ m ≠ FP.ninf) ∧
    ((pct_unservedF r).finite = true ∧ (pct_underservedF r).finite = true ∧
     (pct_unserved_underservedF r).finite = true ∧ (pct_fiber_unservedF r).finite = true ∧
     (pct_no_fiberF r).finite = true ∧ (pct_copper_servedF r).finite = true ∧
     (pct_no_internetF r).finite = true ∧ (pct_cellular_onlyF r).finite = true ∧
     (pct_broadbandF r).finite = true ∧ (pct_cable_fiber_dslF r).finite = true ∧
     (pct_servedF r).finite = true ∧ (adoption_gapF r).finite = true ∧
     (hh_per_bslF r).finite = true) ∧
    ((pct_bachelors_plusF r = FP.nan ↔ r.edu_total_25plus = 0) ∧
     (unemployment_rateF r = FP.nan ↔ r.emp_civilian_labor = 0) ∧
     (pct_minorityF r = FP.nan ↔ r.race_total = 0) ∧
     (pct_no_computerF r = FP.nan ↔ r.comp_total_hh = 0)) := by
  have hbne : r.TotalBSLs ≠ 0 := ne_of_gt hb
  have hhne : r.hh_total ≠ 0 := ne_of_gt hh
  have hf1 : (pct_unservedF r).finite = true := ratio_metric_finite _ _ hbne
  have hf2 : (pct_underservedF r).finite = true := ratio_metric_finite _ _ hbne
  have hf3 : (pct_unserved_underservedF r).finite = true := by
    rw [pct_unserved_underservedF]
    simp only [fpn, FP.add]
    exact ratio_metric_finite _ _ hbne
  have hf4 : (pct_fiber_unservedF r).finite = true := ratio_metric_finite _ _ hbne
  have hf5 : (pct_no_fiberF r).finite = true := by
    rw [pct_no_fiberF]
    simp only [fpn, FP.sub]
    exact ratio_metric_finite _ _ hbne
  have hf6 : (pct_copper_servedF r).finite = true := ratio_metric_finite _ _ hbne
  have hf7 : (pct_no_internetF r).finite = true := ratio_metric_finite _ _ hhne
  have hf8 : (pct_cellular_onlyF r).finite = true := ratio_metric_finite _ _ hhne
  have hf9 : (pct_broadbandF r).finite = true := ratio_metric_finite _ _ hhne
  have hf10 : (pct_cable_fiber_dslF r).finite = true := ratio_metric_finite _ _ hhne
  have hf11 : (pct_servedF r).finite = true := ratio_metric_finite _ _ hbne
  have hf12 : (adoption_gapF r).finite = true := fp_sub_finite _ _ hf11 hf9
  have hf13 : (hh_per_bslF r).finite = true := by
    rw [hh_per_bslF, fpn, fpn, fp_div_num_of_ne _ _ hbne]
    rfl
  have hg1 : pct_bachelors_plusF r = FP.nan ↔ r.edu_total_25plus = 0 := by
    rw [pct_bachelors_plusF]
    simp only [fpn, FP.add]
    exact guarded_nan_iff _ _
  have hg2 : unemployment_rateF r = FP.nan ↔ r.emp_civilian_labor = 0 := guarded_nan_iff _ _
  have hg3 : pct_minorityF r = FP.nan ↔ r.race_total = 0 := by
    rw [pct_minorityF]
    simp only [fpn, FP.sub]
    exact guarded_nan_iff _ _
  have hg4 : pct_no_computerF r = FP.nan ↔ r.comp_total_hh = 0 := guarded_nan_iff _ _
  have hn1 : pct_bachelors_plusF r ≠ FP.inf ∧ pct_bachelors_plusF r ≠ FP.ninf := by
    rw [pct_bachelors_plusF]
    simp only [fpn, FP.add]
    exact guarded_not_inf _ _
  have hn2 : unemployment_rateF r ≠ FP.inf ∧ unemployment_rateF r ≠ FP.ninf :=
    guarded_not_inf _ _
  have hn3 : pct_minorityF r ≠ FP.inf ∧ pct_minorityF r ≠ FP.ninf := by
    rw [pct_minorityF]
    simp only [fpn, FP.sub]
    exact guarded_not_inf _ _
  have hn4 : pct_no_computerF r ≠ FP.inf ∧ pct_no_computerF r ≠ FP.ninf := guarded_not_inf _ _
  refine ⟨?_, ⟨hf1, hf2, hf3, hf4, hf5, hf6, hf7, hf8, hf9, hf10, hf11, hf12, hf13⟩,
    hg1, hg2, hg3, hg4⟩
  intro m hm
  simp only [derivedMetricsF, List.mem_cons, List.not_mem_nil, or_false] at hm
  rcases hm with rfl | rfl | rfl | rfl | rfl | rfl | rfl | rfl | rfl | rfl | rfl | rfl | rfl |
    rfl | rfl | rfl | rfl
  exacts [fp_finite_not_inf _ hf1, fp_finite_not_inf _ hf2, fp_finite_not_inf _ hf3,
    fp_finite_not_inf _ hf4, fp_finite_not_inf _ hf5, fp_finite_not_inf _ hf6,
    fp_finite_not_inf _ hf7, fp_finite_not_inf _ hf8, fp_finite_not_inf _ hf9,
    fp_finite_not_inf _ hf10, fp_finite_not_inf _ hf11, fp_finite_not_inf _ hf12,
    hn1, hn2, hn3, fp_finite_not_inf _ hf13, hn4]

/-- A retained row with zero education and race denominators. -/
def sampleZeroDenomRow : Row :=
  { sampleRowA with edu_total_25plus := 0, race_total := 0 }

/-- Witness for C9 at a concrete retained row with two zero
denominators. -/
theorem derived_divisions_guarded_witness :
    ((0 : ℚ) < sampleZeroDenomRow.total_population ∧
      (0 : ℚ) < sampleZeroDenomRow.hh_total ∧ (0 : ℚ) < sampleZeroDenomRow.TotalBSLs) ∧
    (∀ m ∈ derivedMetricsF sampleZeroDenomRow, m ≠ FP.inf ∧ m ≠ FP.ninf) ∧
    (pct_bachelors_plusF sampleZeroDenomRow = FP.nan ↔
      sampleZeroDenomRow.edu_total_25plus = 0) ∧
    (pct_minorityF sampleZeroDenomRow = FP.nan ↔ sampleZeroDenomRow.race_total = 0) :=
  have hp : (0 : ℚ) < sampleZeroDenomRow.total_population := by
    norm_num [sampleZeroDenomRow, sampleRowA]
  have hh : (0 : ℚ) < sampleZeroDenomRow.hh_total := by
    norm_num [sampleZeroDenomRow, sampleRowA]
  have hb : (0 : ℚ) < sampleZeroDenomRow.TotalBSLs := by
    norm_num [sampleZeroDenomRow, sampleRowA]
  have h := derived_divisions_guarded sampleZeroDenomRow hp hh hb
  ⟨⟨hp, hh, hb⟩, h.1, h.2.2.1, h.2.2.2.2.1⟩

/-- The scored record of `sampleRowB` in the two-row sample table. -/
def sampleScoredB : ScoredRow :=
  { row := sampleRowB
    score_supply_gap := score_supply_gap sampleDf sampleRowB
    score_demand_signal := score_demand_signal sampleDf sampleRowB
    score_funding_tailwind := score_funding_tailwind sampleDf sampleRowB
    score_build_feasibility := score_build_feasibility sampleDf sampleRowB
    opportunity_score := opportunity_score sampleDf sampleRowB
    opportunity_rank := opportunity_rank sampleDf sampleRowB
    opportunity_tier := opportunity_tier (opportunity_score sampleDf sampleRowB) }

/-- Witness for the amended C4 at the concrete two-row sample table. -/
theorem rank_ties_and_monotonicity_witness :
    (sampleScoredA ∈ build_composite_score sampleDf ∧
      sampleScoredB ∈ build_composite_score sampleDf) ∧
    ((sampleScoredA.opportunity_score = sampleScoredB.opportunity_score →
        sampleScoredA.opportunity_rank = sampleScoredB.opportunity_rank) ∧
      (sampleScoredB.opportunity_score < sampleScoredA.opportunity_score →
        sampleScoredA.opportunity_rank < sampleScoredB.opportunity_rank)) :=
  have h1 : sampleScoredA ∈ build_composite_score sampleDf := by
    simp [sampleScoredA, build_composite_score, sampleDf]
  have h2 : sampleScoredB ∈ build_composite_score sampleDf := by
    simp [sampleScoredB, build_composite_score, sampleDf]
  ⟨⟨h1, h2⟩, rank_ties_and_monotonicity sampleDf sampleScoredA sampleScoredB h1 h2⟩

set_option maxHeartbeats 6400000 in
/-- C4 counterexample: on the three-row table `dfTie` (two equal tracts
on top, one below), the composite scores are
[2771/40, 2771/40, 657/16] but the persisted ranks are [1, 1, 3]: the
next distinct lower score receives rank 3, not the consecutive rank 2 —
no tract receives rank 2 at all — so the rank is not a dense rank. -/
theorem rank_not_dense_counterexample :
    (build_composite_score dfTie).map ScoredRow.opportunity_score =
      [2771/40, 2771/40, 657/16] ∧
    (657 : ℚ)/16 < 2771/40 ∧
    (build_composite_score dfTie).map ScoredRow.opportunity_rank = [1, 1, 3] ∧
    ∀ sr ∈ build_composite_score dfTie, sr.opportunity_rank ≠ 2 := by
  have hscore : (build_composite_score dfTie).map ScoredRow.opportunity_score =
      [2771/40, 2771/40, 657/16] := by
    norm_num [dfTie, sampleRowA, sampleRowB, build_composite_score, opportunity_score,
      score_supply_gap, score_demand_signal, score_funding_tailwind, score_build_feasibility,
      demand_income_score, income_fill, income_filled_col, incomeCol, presentIncomes,
      medianQ, sortQ, insertSorted, lowIncomePenalty, percentileAt, pctRank, avgRank,
      countLt, countEq, countSome, countNone, rucc_map,
      pct_unserved, pct_unserved_underserved, pct_no_fiber, pct_copper_served,
      pct_cellular_only, pct_broadband, pct_served, adoption_gap,
      List.countP_cons, List.countP_nil, List.filterMap_cons, List.filterMap_nil,
      List.length_cons, List.length_nil, List.foldr_cons, List.foldr_nil,
      List.getElem?_cons_zero, List.getElem?_cons_succ, Option.getD_some, Option.getD_none]
  have hrank : (build_composite_score dfTie).map ScoredRow.opportunity_rank = [1, 1, 3] := by
    norm_num [dfTie, sampleRowA, sampleRowB, build_composite_score, opportunity_score,
      opportunity_rank, scoreCol, rankDesc, countGt, countEqQ, astype_int,
      score_supply_gap, score_demand_signal, score_funding_tailwind, score_build_feasibility,
      demand_income_score, income_fill, income_filled_col, incomeCol, presentIncomes,
      medianQ, sortQ, insertSorted, lowIncomePenalty, percentileAt, pctRank, avgRank,
      countLt, countEq, countSome, countNone, rucc_map,
      pct_unserved, pct_unserved_underserved, pct_no_fiber, pct_copper_served,
      pct_cellular_only, pct_broadband, pct_served, adoption_gap,
      List.countP_cons, List.countP_nil, List.filterMap_cons, List.filterMap_nil,
      List.length_cons, List.length_nil, List.foldr_cons, List.foldr_nil,
      List.getElem?_cons_zero, List.getElem?_cons_succ, Option.getD_some, Option.getD_none]
  refine ⟨hscore, by norm_num, hrank, ?_⟩
  intro sr hsr hr2
  have hmem : sr.opportunity_rank ∈ [(1 : ℤ), 1, 3] := by
    rw [← hrank]
    exact List.mem_map_of_mem _ hsr
  rw [hr2] at hmem
  simp at hmem

end FiberOpp
